import Mathlib

/-!
Verification development for the feishu-document-to-Markdown renderer
(`src/converter/markdown.ts`, `src/converter/buffer.ts`, `src/converter/types.ts`,
`src/utils/file.ts`).

The TypeScript renderer is a recursive-descent transform over a flat,
ID-linked list of typed blocks.  It is embedded shallowly here:

* JS strings are Lean `String`s; the handful of JS string primitives used by
  the renderer (`endsWith`, `replaceAll`, `trim`, `trimStart`, `trimEnd`) are
  defined below on the character-list view of `String`, which keeps every
  definition kernel-computable.
* The renderer class holds mutable fields.  `blockMap` is built once per
  `parse` call from the input list and then only read, so it is passed as a
  read-only context.  `currentBlock` is assigned at the top of every
  `parseBlock` call and read only while that block's own inline elements are
  rendered, so it is passed down as an explicit argument.  `nextBlock`,
  `indent` and `_fileTokens` are genuinely threaded state and live in
  `RState`.  `_title` is written by `parsePageBlock` and read by nothing in
  the renderer (only exposed through a getter), so it is modelled by the
  stand-alone `documentTitle` below.  `outputUnsupported` is initialised to
  `false` and never mutated anywhere in the repository.
* External code that is not part of this repository (the `marked` Markdown
  to HTML converter, the JS built-in `decodeURIComponent`, and the emoji
  table of `emoji.ts`) is abstracted as the record `Ext` of opaque string
  functions; no claim depends on their behaviour.
* Unbounded recursion through the block map is modelled with a `fuel`
  parameter; fuel `0` returns the empty fragment.
-/

namespace FeishuMd

/-! ## JS string primitives -/

/-- Whitespace as trimmed by the JS `trim` family.  The renderer only ever
produces ASCII whitespace, so the exotic Unicode space classes are omitted. -/
def jsIsWhitespace (c : Char) : Bool :=
  c == ' ' || c == '\t' || c == '\n' || c == '\r'

/-- JS `String.prototype.trimStart`. -/
def strTrimLeft (s : String) : String :=
  String.mk (s.data.dropWhile jsIsWhitespace)

/-- JS `String.prototype.trimEnd`. -/
def strTrimRight (s : String) : String :=
  String.mk ((s.data.reverse.dropWhile jsIsWhitespace).reverse)

/-- JS `String.prototype.trim`. -/
def strTrim (s : String) : String :=
  strTrimRight (strTrimLeft s)

/-- JS `String.prototype.endsWith`. -/
def strEndsWith (s suffix : String) : Bool :=
  suffix.data.isSuffixOf s.data

/-- Replacement of every non-overlapping occurrence of the (non-empty)
pattern `c :: cs`, scanning left to right as JS `replaceAll` does.  The
extra `Nat` argument is structural-recursion fuel, initialised to the
length of the scanned list (each step consumes at least one character, so
the fuel never runs out). -/
def replaceListAux (c : Char) (cs rep : List Char) : Nat → List Char → List Char
  | _, [] => []
  | 0, s => s
  | n + 1, a :: as =>
    if (c :: cs).isPrefixOf (a :: as) then rep ++ replaceListAux c cs rep n (as.drop cs.length)
    else a :: replaceListAux c cs rep n as

/-- JS `String.prototype.replaceAll` (and global-regex `replace`) for a
literal pattern.  The renderer never calls it with an empty pattern; that
case is mapped to the identity. -/
def strReplace (s pat rep : String) : String :=
  match pat.data with
  | [] => s
  | c :: cs => String.mk (replaceListAux c cs rep.data s.data.length s.data)

/-- JS `String.prototype.toLowerCase`, ASCII view. -/
def strToLower (s : String) : String :=
  String.mk (s.data.map Char.toLower)

/-! ## buffer.ts -/

/-- Source `buffer.ts`, `trimLastIfEndsWith`: if the buffer ends with
`suffix`, remove it.  The TS method mutates the buffer and returns a
success flag; here the trimmed buffer is returned as `some`, and `none`
means "did not end with the suffix" (including the guard for an empty
suffix). -/
def trimLastIfEndsWith (s suffix : String) : Option String :=
  if suffix.data.isEmpty then none
  else if suffix.data.isSuffixOf s.data then
    some (String.mk (s.data.take (s.data.length - suffix.data.length)))
  else none

/-- Source `buffer.ts`, `trimLastNewline`: `text.replace(/\n$/, "")`. -/
def trimLastNewline (text : String) : String :=
  if strEndsWith text "\n" then String.mk (text.data.take (text.data.length - 1))
  else text

/-- Source `buffer.ts`, `escapeHTMLTags`. -/
def escapeHTMLTags (text : String) : String :=
  strReplace (strReplace text "<" "&lt;") ">" "&gt;"

/-- Source `buffer.ts`, `writeIndent`: three spaces per indent level. -/
def writeIndent (indent : Nat) : String :=
  if indent > 0 then String.join (List.replicate indent "   ") else ""

/-! ## types.ts : the block data model -/

/-- Source `types.ts`, `enum BlockType` (numeric values in the source are
Page=1 ... Board=43, SyncedBlock=999; only the tags matter here). -/
inductive BlockType where
  | page | text
  | heading1 | heading2 | heading3 | heading4 | heading5
  | heading6 | heading7 | heading8 | heading9
  | bullet | ordered | code | quote | mentionDoc | todoList | bitable
  | callout | chatCard | diagram | divider | file | grid | gridColumn
  | iframe | image | widget | mindNote | sheet | table | tableCell
  | view | quoteContainer | board | syncedBlock
deriving DecidableEq

structure TextStyle where
  align : Nat := 0
  done : Bool := false
  folded : Bool := false
  language : Nat := 0
  wrap : Bool := false
deriving DecidableEq

structure TextLink where
  url : String := ""
deriving DecidableEq

structure TextElementStyle where
  bold : Bool := false
  italic : Bool := false
  strikethrough : Bool := false
  underline : Bool := false
  inline_code : Bool := false
  background_color : Nat := 0
  text_color : Nat := 0
  link : Option TextLink := none
deriving DecidableEq

structure TextRun where
  content : String := ""
  text_element_style : Option TextElementStyle := none
deriving DecidableEq

structure MentionDoc where
  token : String := ""
  obj_type : Nat := 0
  url : String := ""
  title : String := ""
deriving DecidableEq

/-- Source `TextElement`: at most one of the optional members is populated;
`parseTextElement` checks them in the order `text_run`, `equation`,
`mention_doc` (the unused `file` / `inline_block` members are omitted:
the renderer never reads them). -/
structure TextElement where
  text_run : Option TextRun := none
  equation : Option TextRun := none
  mention_doc : Option MentionDoc := none
deriving DecidableEq

/-- Source `TextBlock`.  `elements` is `Option`al because the renderer
guards with `!textBlock?.elements`; the `children` member of the TS
interface is never read (the renderer uses `block.children`). -/
structure TextBlock where
  style : Option TextStyle := none
  elements : Option (List TextElement) := none
deriving DecidableEq

structure ImageBlock where
  width : Nat := 0
  height : Nat := 0
  token : String := ""
  align : Nat := 0
deriving DecidableEq

structure TableMergeInfo where
  row_span : Nat := 1
  col_span : Nat := 1
deriving DecidableEq

structure TableProperty where
  row_size : Nat := 0
  column_size : Nat := 0
  column_width : List Nat := []
  header_column : Bool := false
  header_row : Bool := false
  merge_info : List TableMergeInfo := []
deriving DecidableEq

structure TableBlock where
  cells : List String := []
  property : TableProperty := {}
deriving DecidableEq

/-- Source `CalloutBlock`; the numeric colour IDs use `0` for the absent /
JS-falsy case, which is exactly what the renderer's truthiness checks
test. -/
structure CalloutBlock where
  background_color : Nat := 0
  border_color : Nat := 0
  text_color : Nat := 0
  emoji_id : String := ""
deriving DecidableEq

structure FileBlock where
  name : String := ""
  token : String := ""
deriving DecidableEq

structure GridBlock where
  column_size : Nat := 0
deriving DecidableEq

structure GridColumnBlock where
  width_ratio : Nat := 0
deriving DecidableEq

structure IframeComponent where
  iframe_type : Nat := 0
  url : String := ""
deriving DecidableEq

structure IframeBlock where
  component : Option IframeComponent := none
deriving DecidableEq

/-- Source `Block` interface: identity, parent back-reference, ordered
child IDs, discriminant, and the type-specific payloads the renderer
reads.  Payloads the renderer never touches (`bitable`, `chat_card`,
`diagram`, `divider`, `table_cell`) are omitted. -/
structure Block where
  block_id : String := ""
  parent_id : String := ""
  children : List String := []
  block_type : BlockType := BlockType.text
  page : Option TextBlock := none
  text : Option TextBlock := none
  heading1 : Option TextBlock := none
  heading2 : Option TextBlock := none
  heading3 : Option TextBlock := none
  heading4 : Option TextBlock := none
  heading5 : Option TextBlock := none
  heading6 : Option TextBlock := none
  heading7 : Option TextBlock := none
  heading8 : Option TextBlock := none
  heading9 : Option TextBlock := none
  bullet : Option TextBlock := none
  ordered : Option TextBlock := none
  code : Option TextBlock := none
  quote : Option TextBlock := none
  todo : Option TextBlock := none
  callout : Option CalloutBlock := none
  file : Option FileBlock := none
  grid : Option GridBlock := none
  grid_column : Option GridColumnBlock := none
  iframe : Option IframeBlock := none
  image : Option ImageBlock := none
  table : Option TableBlock := none
  board : Option ImageBlock := none
deriving DecidableEq

/-- Source `FileToken`: `type` ranges over "image" / "file" / "board". -/
structure FileToken where
  token : String
  type : String
deriving DecidableEq

/-- Source `getCodeLanguage` default branch: the reverse mapping
`CodeLanguage[code]` of the numeric enum (PlainText = 1 ... TOML = 74). -/
def codeLanguageNames : List String :=
  ["PlainText", "ABAP", "Ada", "Apache", "Apex", "AssemblyLanguage", "Bash",
   "CSharp", "CPlusPlus", "C", "COBOL", "CSS", "CoffeeScript", "D", "Dart",
   "Delphi", "Django", "Dockerfile", "Erlang", "Fortran", "FoxPro", "Go",
   "Groovy", "HTML", "HTMLBars", "HTTP", "Haskell", "JSON", "Java",
   "JavaScript", "Julia", "Kotlin", "LateX", "Lisp", "Logo", "Lua", "MATLAB",
   "Makefile", "Markdown", "Nginx", "ObjectiveC", "OpenEdgeABL", "PHP",
   "Perl", "PostScript", "PowerShell", "Prolog", "ProtoBuf", "Python", "R",
   "RPG", "Ruby", "Rust", "SAS", "SCSS", "SQL", "Scala", "Scheme", "Scratch",
   "Shell", "Swift", "Thrift", "TypeScript", "VBScript", "VisualBasic",
   "XML", "YAML", "CMake", "Diff", "Gherkin", "GraphQL",
   "OpenGLShadingLanguage", "Properties", "Solidity", "TOML"]

/-- Source `types.ts`, `getCodeLanguage`.  The argument is the numeric
`CodeLanguage` enum value, `0` standing for the absent (JS `undefined`)
case, for which the default branch produces `""`. -/
def getCodeLanguage (code : Nat) : String :=
  if code == 1 then "text"
  else if code == 6 then "assembly"
  else if code == 9 then "cpp"
  else if code == 8 then "csharp"
  else if code == 13 then "coffee"
  else if code == 18 then "docker"
  else if code == 21 then "foxpro"
  else if code == 63 then "typescript"
  else if code == 30 then "javascript"
  else if code == 53 then "rust"
  else if code == 49 then "python"
  else if code == 52 then "ruby"
  else if code == 39 then "markdown"
  else if code == 41 then "objectivec"
  else if code == 65 then "vb"
  else match codeLanguageNames[code - 1]? with
    | some name => strToLower name
    | none => ""

/-- Source `types.ts`, `getAlignStyle` (StyleAlign: Left=1 Center=2 Right=3). -/
def getAlignStyle (align : Nat) : String :=
  if align == 1 then "left"
  else if align == 2 then "center"
  else if align == 3 then "right"
  else "left"

/-- Source `types.ts`, `CalloutBackgroundColorMap`. -/
def calloutBackgroundColorMap (n : Nat) : Option String :=
  match n with
  | 1 => some "#fef2f2" | 2 => some "#fff7ed" | 3 => some "#fefce8"
  | 4 => some "#f0fdf4" | 5 => some "#eff6ff" | 6 => some "#faf5ff"
  | 7 => some "#f9fafb" | 8 => some "#fecaca" | 9 => some "#fed7aa"
  | 10 => some "#fef08a" | 11 => some "#bbf7d0" | 12 => some "#bfdbfe"
  | 13 => some "#e9d5ff" | 14 => some "#e5e7eb"
  | _ => none

/-- Source `types.ts`, `CalloutBorderColorMap`. -/
def calloutBorderColorMap (n : Nat) : Option String :=
  match n with
  | 1 => some "#fecaca" | 2 => some "#fed7aa" | 3 => some "#fef08a"
  | 4 => some "#bbf7d0" | 5 => some "#bfdbfe" | 6 => some "#e9d5ff"
  | 7 => some "#e5e7eb"
  | _ => none

/-- Source `types.ts`, `FontColorMap`. -/
def fontColorMap (n : Nat) : Option String :=
  match n with
  | 1 => some "#ef4444" | 2 => some "#f97316" | 3 => some "#eab308"
  | 4 => some "#22c55e" | 5 => some "#3b82f6" | 6 => some "#a855f7"
  | 7 => some "#6b7280"
  | _ => none

/-! ## External collaborators -/

/-- Code outside this repository that the renderer calls: `marked.parse`
(the Markdown to HTML bridge), the JS built-in `decodeURIComponent`, and
`getEmojiChar` from `emoji.ts`.  They are opaque string functions here. -/
structure Ext where
  markedParse : String → String
  decodeURIComponent : String → String
  getEmojiChar : String → String

/-- Read-only context of one render pass: the external functions and the
flat block list from which the `block_id → Block` map is built. -/
structure Ctx where
  ext : Ext
  blockMap : List Block

/-- Lookup in the `block_id → Block` map.  `Map.set` overwrites, so for a
duplicated ID the last block in the input list wins. -/
def lookupBlock (bm : List Block) (id : String) : Option Block :=
  bm.reverse.find? (fun b => b.block_id == id)

/-- Mutable renderer state threaded through the walk: the lookahead
sibling, the current indent level, and the collected file tokens. -/
structure RState where
  nextBlock : Option Block := none
  indent : Nat := 0
  fileTokens : List FileToken := []

/-- State of a freshly constructed `MarkdownRenderer`. -/
def initState : RState := {}

/-- Source `addFileToken`: push `(token, type)` when the token is
JS-truthy (non-empty). -/
def addFileToken (st : RState) (ty tok : String) : RState :=
  if tok != "" then { st with fileTokens := st.fileTokens ++ [⟨tok, ty⟩] } else st

/-! ## Inline text composition (markdown.ts, parseTextElement / parseTextRun) -/

/-- Matching of the source regex `/[:：]$/` (ASCII or full-width colon at
the end). -/
def endsWithColon (s : String) : Bool :=
  strEndsWith s ":" || strEndsWith s "："

/-- First half of `parseTextRun`: the style-precedence choice of the
open/close wrappers and the escape flag (lines 304-332 of the renderer). -/
def styleWrappers (ext : Ext) (style : Option TextElementStyle) : String × String × Bool :=
  match style with
  | none => ("", "", true)
  | some s =>
    if s.bold then ("**", "**", true)
    else if s.italic then ("*", "*", true)
    else if s.strikethrough then ("~~", "~~", true)
    else if s.underline then ("<u>", "</u>", true)
    else if s.inline_code then ("`", "`", false)
    else match s.link with
      | some l => ("[", "](" ++ ext.decodeURIComponent l.url ++ ")", true)
      | none => ("", "", true)

/-- HTML escaping step of `parseTextRun`: escape unless the run is inline
code or the enclosing block is a code block. -/
def escapedText (escape : Bool) (cur : Block) (content : String) : String :=
  if escape && !(cur.block_type == BlockType.code) then escapeHTMLTags content
  else content

/-- Trailing-colon special case of `parseTextRun`: bold / italic /
strikethrough wrapping switches to explicit HTML tags. -/
def colonAdjust (style : Option TextElementStyle) (plainText pre post : String) :
    String × String :=
  if endsWithColon plainText then
    match style with
    | some s =>
      if s.bold then ("<b>", "</b>")
      else if s.italic then ("<i>", "</i>")
      else if s.strikethrough then ("<s>", "</s>")
      else (pre, post)
    | none => (pre, post)
  else (pre, post)

/-- Source `parseTextRun`.  `cur` is the block the renderer is currently
inside (`this.currentBlock`, which is assigned at the top of `parseBlock`
before any inline element of that block is rendered).  The buffer is the
string accumulated so far; merging of identical adjacent styles happens
through `trimLastIfEndsWith`. -/
def parseTextRun (ext : Ext) (cur : Block) (buf : String) (textRun : TextRun) : String :=
  let (preWrite, postWrite, escape) := styleWrappers ext textRun.text_element_style
  let plainText := escapedText escape cur textRun.content
  let (preWrite2, postWrite2) := colonAdjust textRun.text_element_style plainText preWrite postWrite
  match trimLastIfEndsWith buf preWrite2 with
  | some trimmed => trimmed ++ plainText ++ postWrite2
  | none => buf ++ preWrite2 ++ plainText ++ postWrite2

/-- Source `parseTextElement`: dispatch over text run / equation /
doc-mention. -/
def parseTextElement (ext : Ext) (cur : Block) (buf : String) (el : TextElement)
    (inline : Bool) : String :=
  match el.text_run with
  | some tr => parseTextRun ext cur buf tr
  | none =>
    match el.equation with
    | some eq =>
      let symbol := if inline then "$" else "$$"
      buf ++ symbol ++ strTrimRight eq.content ++ symbol
    | none =>
      match el.mention_doc with
      | some md => buf ++ "[" ++ md.title ++ "](" ++ ext.decodeURIComponent md.token ++ ")"
      | none => buf

/-- Inline rendering of an element sequence (the element loop of
`parseTextBlock`, and of the title computation in `parsePageBlock`). -/
def renderElements (ext : Ext) (cur : Block) (els : List TextElement) : String :=
  els.foldl (fun b el => parseTextElement ext cur b el (els.length > 1)) ""

/-- The pure part of `parseTextBlock` (lines 243-255): the inline elements
followed by a newline when non-empty; used by the lemmas below to state
that `parseTextBlock` leaves the threaded state untouched for block types
without child recursion. -/
def textBlockText (ext : Ext) (block : Block) (tb : Option TextBlock) : String :=
  match tb with
  | none => ""
  | some t =>
    match t.elements with
    | none => ""
    | some els =>
      let buf := renderElements ext block els
      if buf.length > 0 then buf ++ "\n" else buf

/-- Document title computation of `parsePageBlock` (lines 210-216): the
`_title` field is written there and read by nothing else in the renderer
(it is only exposed through the `title` getter), so it is modelled as a
stand-alone function; `none` means the field keeps its previous value. -/
def documentTitle (ext : Ext) (root : Block) : Option String :=
  match root.page with
  | some pg =>
    match pg.elements with
    | some els => if els.length > 0 then some (strTrim (renderElements ext root els)) else none
    | none => none
  | none => none

/-! ## List ordinals (markdown.ts, parseOrderedBlock lines 398-416) -/

/-- Does this child ID resolve to an ordered-list block?  (`prevBlock?.
block_type === BlockType.Ordered`; a missing block compares false.) -/
def isOrderedBlockId (bm : List Block) (id : String) : Bool :=
  match lookupBlock bm id with
  | some b => b.block_type == BlockType.ordered
  | none => false

/-- Ordinal computation of `parseOrderedBlock`: find the block's position
in the parent's child list (first occurrence, as the TS loop breaks on the
first match), then scan backward counting consecutive ordered siblings,
stopping at the first non-ordered one.  The backward scan with `break` is
exactly `takeWhile` on the reversed prefix.  `order` stays `1` when the
parent or the position cannot be found. -/
def computeOrder (bm : List Block) (block : Block) : Nat :=
  match lookupBlock bm block.parent_id with
  | none => 1
  | some parent =>
    match parent.children.findIdx? (fun c => c == block.block_id) with
    | none => 1
    | some i =>
      1 + ((parent.children.take i).reverse.takeWhile (isOrderedBlockId bm)).length

/-! ## Table helpers (markdown.ts) -/

/-- Source `isComplexTable`: any merge span exceeding 1, or any declared
column width strictly above 100. -/
def isComplexTable (table : TableBlock) : Bool :=
  let hasMerge := table.property.merge_info.any (fun info => info.row_span > 1 || info.col_span > 1)
  let hasColWidth := table.property.column_width.any (fun width => width > 100)
  hasMerge || hasColWidth

/-- Source `tableCellAttrHTML`: `rowspan` / `colspan` attributes of the
origin cell at flat index `idx`. -/
def tableCellAttrHTML (mergeInfos : List TableMergeInfo) (idx : Nat) : String :=
  match mergeInfos[idx]? with
  | none => ""
  | some mi =>
    let attrs := (if mi.row_span > 1 then ["rowspan=\"" ++ toString mi.row_span ++ "\""] else [])
              ++ (if mi.col_span > 1 then ["colspan=\"" ++ toString mi.col_span ++ "\""] else [])
    if attrs.length > 0 then " " ++ String.intercalate " " attrs else ""

/-- Covered-cell computation of `parseTableAsHTML` (lines 575-590): start
from all `1`s, then zero out the cells covered by a row span (same column,
following rows) or a column span (following cells of the row).  `List.set`
is the identity out of range, matching the `targetIdx < cellInfos.length`
guard. -/
def cellInfos (mergeInfos : List TableMergeInfo) (columnSize : Nat) : List Nat :=
  (List.range mergeInfos.length).foldl
    (fun infos i =>
      match mergeInfos[i]? with
      | none => infos
      | some info =>
        let infos := if info.row_span > 1 then
            (List.range (info.row_span - 1)).foldl (fun acc j => acc.set (i + (j + 1) * columnSize) 0) infos
          else infos
        if info.col_span > 1 then
          (List.range (info.col_span - 1)).foldl (fun acc j => acc.set (i + (j + 1)) 0) infos
        else infos)
    (List.replicate mergeInfos.length 1)

/-- The `writeCell` closure of `parseTableAsHTML`: emit
`<tag attrs>cell</tag>` when the flat index is an uncovered origin cell,
always advancing `cellIdx` (`cell || ""` is the identity on strings). -/
def writeCells (mergeInfos : List TableMergeInfo) (infos : List Nat) :
    Nat → String → List String → String × Nat
  | cellIdx, _, [] => ("", cellIdx)
  | cellIdx, tag, cell :: rest =>
    let attr := tableCellAttrHTML mergeInfos cellIdx
    let cur := if infos[cellIdx]? == some 1 then
        "<" ++ tag ++ attr ++ ">" ++ cell ++ "</" ++ tag ++ ">"
      else ""
    let (others, ci) := writeCells mergeInfos infos (cellIdx + 1) tag rest
    (cur ++ others, ci)

/-! ## Media and leaf blocks (markdown.ts) -/

/-- Source `parseImage`: a self-closing `img` tag plus token collection
(`if (image.width)` and friends are JS truthiness tests, so `0` omits the
attribute). -/
def parseImage (image : Option ImageBlock) (st : RState) : String × RState :=
  match image with
  | none => ("", st)
  | some img =>
    let align := getAlignStyle img.align
    let attrs := ["src=\"" ++ img.token ++ "\""]
      ++ (if img.width != 0 then ["src-width=\"" ++ toString img.width ++ "\""] else [])
      ++ (if img.height != 0 then ["src-height=\"" ++ toString img.height ++ "\""] else [])
      ++ (if align != "" && align != "left" then ["align=\"" ++ align ++ "\""] else [])
    let st := addFileToken st "image" img.token
    ("<img " ++ String.intercalate " " attrs ++ " />" ++ "\n", st)

/-- Source `parseBoard`: identical to `parseImage` but registers a
"board" token. -/
def parseBoard (board : Option ImageBlock) (st : RState) : String × RState :=
  match board with
  | none => ("", st)
  | some img =>
    let align := getAlignStyle img.align
    let attrs := ["src=\"" ++ img.token ++ "\""]
      ++ (if img.width != 0 then ["src-width=\"" ++ toString img.width ++ "\""] else [])
      ++ (if img.height != 0 then ["src-height=\"" ++ toString img.height ++ "\""] else [])
      ++ (if align != "" && align != "left" then ["align=\"" ++ align ++ "\""] else [])
    let st := addFileToken st "board" img.token
    ("<img " ++ String.intercalate " " attrs ++ " />" ++ "\n", st)

/-- Source `parseFile`: a Markdown link plus token collection. -/
def parseFile (block : Block) (st : RState) : String × RState :=
  match block.file with
  | none => ("", st)
  | some f =>
    let st := addFileToken st "file" f.token
    ("[" ++ f.name ++ "](" ++ f.token ++ ")\n", st)

/-- Source `parseIframe`: percent-decoded `iframe` tag; an absent or empty
URL yields nothing. -/
def parseIframe (ext : Ext) (block : Block) : String :=
  let url := match block.iframe with
    | some ifr => match ifr.component with
      | some c => c.url
      | none => ""
    | none => ""
  if url == "" then ""
  else "<iframe src=\"" ++ ext.decodeURIComponent url ++ "\"></iframe>\n"

/-- Style and class accumulation of `parseCallout` (lines 749-772). -/
def calloutStyle (co : Option CalloutBlock) : List String × List String :=
  match co with
  | none => ([], ["callout"])
  | some c =>
    let se : List String := []
    let cn : List String := ["callout"]
    let (se, cn) := if c.background_color != 0 then
        (se ++ (match calloutBackgroundColorMap c.background_color with
                | some bg => ["background: " ++ bg]
                | none => []),
         cn ++ ["callout-bg-" ++ toString c.background_color])
      else (se, cn)
    let (se, cn) := if c.border_color != 0 then
        (se ++ (match calloutBorderColorMap c.border_color with
                | some b => ["border: 1px solid " ++ b]
                | none => []),
         cn ++ ["callout-border-" ++ toString c.border_color])
      else (se, cn)
    if c.text_color != 0 then
      (se ++ ["color: " ++ (match fontColorMap c.text_color with
              | some f => f
              | none => "#222")],
       cn ++ ["callout-color-" ++ toString c.text_color])
    else (se, cn)

/-- The `outputUnsupported` flag is initialised to `false` and never set
anywhere in the repository, so `parseUnsupport` always returns the empty
fragment (its debug branch, a fenced JSON dump, is dead code). -/
def parseUnsupport (_block : Block) : String := ""

/-- The text/heading block types whose children `parseTextBlock` renders
recursively. -/
def childrenBlockTypes : List BlockType :=
  [BlockType.text, BlockType.heading1, BlockType.heading2, BlockType.heading3,
   BlockType.heading4, BlockType.heading5, BlockType.heading6, BlockType.heading7,
   BlockType.heading8, BlockType.heading9]

/-- Language of a code block: `block.code?.style?.language`, `0` for the
absent case. -/
def codeStyleLanguage (tb : Option TextBlock) : Nat :=
  match tb with
  | some t => match t.style with
    | some s => s.language
    | none => 0
  | none => 0

/-- Done flag of a todo block: `block.todo?.style?.done`. -/
def todoDone (tb : Option TextBlock) : Bool :=
  match tb with
  | some t => match t.style with
    | some s => s.done
    | none => false
  | none => false

/-! ## The recursive render dispatcher (markdown.ts, parseBlock and friends)

The mutual recursion through the block map is bounded by `fuel`; each
dispatch from `parseBlock` into a child-specific parser consumes one unit.
Every function returns the emitted fragment together with the updated
threaded state. -/

set_option maxHeartbeats 2000000 in
mutual

/-- Source `parseBlock`: set the indent, emit the indent prefix, record the
current block (passed on as an argument here) and dispatch on the
discriminant. -/
def parseBlock (ctx : Ctx) : Nat → Block → Nat → RState → String × RState
  | 0, _, _, st => ("", st)
  | fuel + 1, block, indent, st =>
    let st := { st with indent := indent }
    let pre := writeIndent indent
    match block.block_type with
    | BlockType.page =>
      let r := parsePageBlock ctx fuel block st
      (pre ++ r.1, r.2)
    | BlockType.text =>
      let r := parseTextBlock ctx fuel block block.text st
      (pre ++ r.1, r.2)
    | BlockType.heading1 =>
      let r := parseTextBlock ctx fuel block block.heading1 st
      (pre ++ "# " ++ strTrimLeft r.1, r.2)
    | BlockType.heading2 =>
      let r := parseTextBlock ctx fuel block block.heading2 st
      (pre ++ "## " ++ strTrimLeft r.1, r.2)
    | BlockType.heading3 =>
      let r := parseTextBlock ctx fuel block block.heading3 st
      (pre ++ "### " ++ strTrimLeft r.1, r.2)
    | BlockType.heading4 =>
      let r := parseTextBlock ctx fuel block block.heading4 st
      (pre ++ "#### " ++ strTrimLeft r.1, r.2)
    | BlockType.heading5 =>
      let r := parseTextBlock ctx fuel block block.heading5 st
      (pre ++ "##### " ++ strTrimLeft r.1, r.2)
    | BlockType.heading6 =>
      let r := parseTextBlock ctx fuel block block.heading6 st
      (pre ++ "###### " ++ strTrimLeft r.1, r.2)
    | BlockType.heading7 =>
      let r := parseTextBlock ctx fuel block block.heading7 st
      (pre ++ "####### " ++ strTrimLeft r.1, r.2)
    | BlockType.heading8 =>
      let r := parseTextBlock ctx fuel block block.heading8 st
      (pre ++ "######## " ++ strTrimLeft r.1, r.2)
    | BlockType.heading9 =>
      let r := parseTextBlock ctx fuel block block.heading9 st
      (pre ++ "######### " ++ strTrimLeft r.1, r.2)
    | BlockType.bullet =>
      let r := parseBulletBlock ctx fuel block indent st
      (pre ++ strTrimLeft r.1, r.2)
    | BlockType.ordered =>
      let r := parseOrderedBlock ctx fuel block indent st
      (pre ++ r.1, r.2)
    | BlockType.code =>
      let r := parseTextBlock ctx fuel block block.code st
      (pre ++ "```" ++ getCodeLanguage (codeStyleLanguage block.code) ++ "\n"
        ++ strTrim r.1 ++ "\n```\n", r.2)
    | BlockType.quote =>
      let r := parseTextBlock ctx fuel block block.quote st
      (pre ++ "> " ++ r.1, r.2)
    | BlockType.todoList =>
      let r := parseTextBlock ctx fuel block block.todo st
      (pre ++ "- [" ++ (if todoDone block.todo then "x" else " ") ++ "] " ++ r.1, r.2)
    | BlockType.divider => (pre ++ "---\n", st)
    | BlockType.image =>
      let r := parseImage block.image st
      (pre ++ r.1, r.2)
    | BlockType.tableCell =>
      let r := parseTableCell ctx fuel block st
      (pre ++ r.1, r.2)
    | BlockType.table =>
      let r := parseTable ctx fuel block.table st
      (pre ++ r.1, r.2)
    | BlockType.quoteContainer =>
      let r := parseQuoteContainer ctx fuel block st
      (pre ++ r.1, r.2)
    | BlockType.view =>
      let r := parseView ctx fuel block st
      (pre ++ r.1, r.2)
    | BlockType.file =>
      let r := parseFile block st
      (pre ++ r.1, r.2)
    | BlockType.grid =>
      let r := parseGrid ctx fuel block st
      (pre ++ r.1, r.2)
    | BlockType.gridColumn => (pre, st)
    | BlockType.callout =>
      let r := parseCallout ctx fuel block st
      (pre ++ r.1, r.2)
    | BlockType.iframe => (pre ++ parseIframe ctx.ext block, st)
    | BlockType.board =>
      let r := parseBoard block.board st
      (pre ++ r.1, r.2)
    | BlockType.syncedBlock =>
      let r := parseSyncedBlock ctx fuel block st
      (pre ++ r.1, r.2)
    | _ => (pre ++ parseUnsupport block, st)
termination_by fuel _ _ _ => (fuel, 0, 0)

/-- Source `parsePageBlock`: title heading, then the children in order
with a blank line after every non-empty child fragment.  (The `_title`
assignment of lines 210-216 is modelled by `documentTitle`.) -/
def parsePageBlock (ctx : Ctx) (fuel : Nat) (block : Block) (st : RState) : String × RState :=
  let r := parseTextBlock ctx fuel block block.page st
  let rb := parsePageChildren ctx fuel block.children r.2
  ("# " ++ r.1 ++ "\n" ++ rb.1, rb.2)
termination_by (fuel, 3, 0)

/-- The children loop of `parsePageBlock`: a child ID that is missing from
the map is skipped without touching any state; for a present child the
lookahead sibling is set from the next ID (a JS-falsy, i.e. empty, next ID
short-circuits to `null` before the map lookup). -/
def parsePageChildren (ctx : Ctx) (fuel : Nat) : List String → RState → String × RState
  | [], st => ("", st)
  | childId :: rest, st =>
    match lookupBlock ctx.blockMap childId with
    | none => parsePageChildren ctx fuel rest st
    | some child =>
      let st := { st with nextBlock :=
        match rest.head? with
        | some nid => if nid == "" then none else lookupBlock ctx.blockMap nid
        | none => none }
      let rc := parseBlock ctx fuel child 0 st
      let rr := parsePageChildren ctx fuel rest rc.2
      ((if rc.1.length > 0 then rc.1 ++ "\n" else "") ++ rr.1, rr.2)
termination_by cs _ => (fuel, 1, cs.length)

/-- Source `parseTextBlock`: render the inline elements, append a newline
to a non-empty fragment, and for text / heading blocks recurse into the
children at the current (state) indent. -/
def parseTextBlock (ctx : Ctx) (fuel : Nat) (block : Block) (tb : Option TextBlock)
    (st : RState) : String × RState :=
  match tb with
  | none => ("", st)
  | some t =>
    match t.elements with
    | none => ("", st)
    | some els =>
      let buf := renderElements ctx.ext block els
      let buf := if buf.length > 0 then buf ++ "\n" else buf
      if childrenBlockTypes.contains block.block_type then
        let r := parseTextChildren ctx fuel block.children st
        (buf ++ r.1, r.2)
      else (buf, st)
termination_by (fuel, 2, 0)

/-- The children loop of `parseTextBlock`: missing children are skipped;
present children are rendered at `this.indent` (the state indent, which a
nested list subtree may have left raised). -/
def parseTextChildren (ctx : Ctx) (fuel : Nat) : List String → RState → String × RState
  | [], st => ("", st)
  | childId :: rest, st =>
    match lookupBlock ctx.blockMap childId with
    | none => parseTextChildren ctx fuel rest st
    | some child =>
      let rc := parseBlock ctx fuel child st.indent st
      let rr := parseTextChildren ctx fuel rest rc.2
      (rc.1 ++ rr.1, rr.2)
termination_by cs _ => (fuel, 1, cs.length)

/-- Source `parseBulletBlock`: `- ` plus the item text; the trailing
newline is compacted away when the lookahead sibling is a bullet under the
same parent and the item has no children; then the nested children at
`indent + 1`. -/
def parseBulletBlock (ctx : Ctx) (fuel : Nat) (block : Block) (indent : Nat)
    (st : RState) : String × RState :=
  let r := parseTextBlock ctx fuel block block.bullet st
  let itemText :=
    if (match r.2.nextBlock with
        | some nb => nb.block_type == block.block_type && nb.parent_id == block.parent_id
        | none => false) && block.children.isEmpty
    then trimLastNewline r.1 else r.1
  let rc := parseListChildren ctx fuel block.children indent r.2
  ("- " ++ itemText ++ rc.1, rc.2)
termination_by (fuel, 3, 0)

/-- Source `parseOrderedBlock`: the computed ordinal, a dot and a space,
the item text with the same compaction rule as bullets, then the nested
children at `indent + 1`. -/
def parseOrderedBlock (ctx : Ctx) (fuel : Nat) (block : Block) (indent : Nat)
    (st : RState) : String × RState :=
  let order := computeOrder ctx.blockMap block
  let r := parseTextBlock ctx fuel block block.ordered st
  let itemText :=
    if (match r.2.nextBlock with
        | some nb => nb.block_type == block.block_type && nb.parent_id == block.parent_id
        | none => false) && block.children.isEmpty
    then trimLastNewline r.1 else r.1
  let rc := parseListChildren ctx fuel block.children indent r.2
  (toString order ++ ". " ++ itemText ++ rc.1, rc.2)
termination_by (fuel, 3, 0)

/-- The children loop of the two list parsers: the lookahead sibling is
cleared before each found child, which is rendered one indent level
deeper. -/
def parseListChildren (ctx : Ctx) (fuel : Nat) : List String → Nat → RState → String × RState
  | [], _, st => ("", st)
  | childId :: rest, indent, st =>
    match lookupBlock ctx.blockMap childId with
    | none => parseListChildren ctx fuel rest indent st
    | some child =>
      let st := { st with nextBlock := none }
      let rc := parseBlock ctx fuel child (indent + 1) st
      let rr := parseListChildren ctx fuel rest indent rc.2
      (rc.1 ++ rr.1, rr.2)
termination_by cs _ _ => (fuel, 1, cs.length)

/-- Shared children loop of `parseTableCell` / `parseQuoteContainer` /
`parseView` / `parseSyncedBlock`: each found child is rendered at indent 0
after the fixed per-child text `pre` (`"> "` for quote containers, empty
elsewhere); missing children are skipped. -/
def parseContainerChildren (ctx : Ctx) (fuel : Nat) (pre : String) :
    List String → RState → String × RState
  | [], st => ("", st)
  | childId :: rest, st =>
    match lookupBlock ctx.blockMap childId with
    | none => parseContainerChildren ctx fuel pre rest st
    | some child =>
      let rc := parseBlock ctx fuel child 0 st
      let rr := parseContainerChildren ctx fuel pre rest rc.2
      (pre ++ rc.1 ++ rr.1, rr.2)
termination_by cs _ => (fuel, 1, cs.length)

/-- Source `parseTableCell`: render the cell's children in order. -/
def parseTableCell (ctx : Ctx) (fuel : Nat) (block : Block) (st : RState) : String × RState :=
  parseContainerChildren ctx fuel "" block.children st
termination_by (fuel, 2, 0)

/-- Source `parseQuoteContainer`: `> ` before every rendered child. -/
def parseQuoteContainer (ctx : Ctx) (fuel : Nat) (block : Block) (st : RState) : String × RState :=
  parseContainerChildren ctx fuel "> " block.children st
termination_by (fuel, 2, 0)

/-- Source `parseView`: transparent passthrough of the children. -/
def parseView (ctx : Ctx) (fuel : Nat) (block : Block) (st : RState) : String × RState :=
  parseContainerChildren ctx fuel "" block.children st
termination_by (fuel, 2, 0)

/-- Source `parseSyncedBlock`: transparent passthrough of the children. -/
def parseSyncedBlock (ctx : Ctx) (fuel : Nat) (block : Block) (st : RState) : String × RState :=
  parseContainerChildren ctx fuel "" block.children st
termination_by (fuel, 2, 0)

/-- Source `parseTable`: dispatch between the HTML rendering for complex
tables and the pipe-delimited GFM rendering (the GFM body of lines
486-534 is factored out as `parseTableGFM`). -/
def parseTable (ctx : Ctx) (fuel : Nat) (t : Option TableBlock) (st : RState) : String × RState :=
  match t with
  | none => ("", st)
  | some table =>
    if isComplexTable table then parseTableAsHTML ctx fuel table st
    else parseTableGFM ctx fuel table st
termination_by (fuel, 3, 0)

/-- The simple-table branch of `parseTable`: collect the flattened cell
texts into rows, extract the head row when `header_row` is set (an absent
or empty head cell renders as a single space), then the `---|` separator
and the body rows. -/
def parseTableGFM (ctx : Ctx) (fuel : Nat) (table : TableBlock) (st : RState) : String × RState :=
  let r := gfmRows ctx fuel table.cells table.property.column_size 0 [[]] st
  let headRow := if table.property.header_row then r.1.headD [] else []
  let bodyRows := if table.property.header_row then r.1.drop 1 else r.1
  let headerLine := "|" ++ String.join ((List.range table.property.column_size).map
      (fun i => (let c := headRow.getD i ""; if c == "" then " " else c) ++ "|")) ++ "\n"
  let sepLine := "|" ++ String.join (List.replicate table.property.column_size "---|") ++ "\n"
  let bodyLines := String.join (bodyRows.map (fun row =>
      "|" ++ String.join (row.map (fun cell => cell ++ "|")) ++ "\n"))
  (headerLine ++ sepLine ++ bodyLines, r.2)
termination_by (fuel, 2, 0)

/-- The cell-collection loop of the GFM branch: each found cell block is
rendered, its trailing newline trimmed and inner newlines flattened to
spaces, and the text pushed into row `idx / column_size`; a missing cell
block is skipped entirely (its flat index still advances). -/
def gfmRows (ctx : Ctx) (fuel : Nat) :
    List String → Nat → Nat → List (List String) → RState → List (List String) × RState
  | [], _, _, rows, st => (rows, st)
  | cellId :: rest, columnSize, idx, rows, st =>
    match lookupBlock ctx.blockMap cellId with
    | none => gfmRows ctx fuel rest columnSize (idx + 1) rows st
    | some block =>
      let rc := parseBlock ctx fuel block 0 st
      let cellText := strReplace (trimLastNewline rc.1) "\n" " "
      let row := idx / columnSize
      let rows := if rows.length < row + 1 then rows ++ [[]] else rows
      let rows := rows.set row ((rows.getD row []) ++ [cellText])
      gfmRows ctx fuel rest columnSize (idx + 1) rows rc.2
termination_by cs _ _ _ _ => (fuel, 1, cs.length)

/-- Source `parseTableAsHTML`: full `table` markup with `colgroup`,
optional `thead`, `tbody`, and `rowspan`/`colspan` attributes; cells
covered by a merge are omitted from the row markup by `writeCells`. -/
def parseTableAsHTML (ctx : Ctx) (fuel : Nat) (table : TableBlock) (st : RState) : String × RState :=
  let columnSize := table.property.column_size
  let r := htmlRows ctx fuel table.cells columnSize 0 [[]] st
  let attrs := (if table.property.header_column then ["header_column=\"1\""] else [])
            ++ (if table.property.header_row then ["header_row=\"1\""] else [])
  let attrHTML := if attrs.length > 0 then " " ++ String.intercalate " " attrs else ""
  let colgroup := "  <colgroup>\n" ++ String.join ((List.range columnSize).map (fun i =>
      "    <col" ++ (match table.property.column_width[i]? with
        | some w => if w != 0 then " width=\"" ++ toString w ++ "\"" else ""
        | none => "") ++ " />\n")) ++ "  </colgroup>\n"
  let infos := cellInfos table.property.merge_info columnSize
  let headCells := writeCells table.property.merge_info infos 0 "th"
      ((List.range columnSize).map (fun i => (r.1.headD []).getD i ""))
  let headPart := if table.property.header_row then
      "  <thead>\n    <tr>" ++ headCells.1 ++ "</tr>\n  </thead>\n"
    else ""
  let bodyRows := if table.property.header_row then r.1.drop 1 else r.1
  let startIdx := if table.property.header_row then headCells.2 else 0
  let bodyPart := (bodyRows.foldl (fun (acc : String × Nat) row =>
      let rcells := writeCells table.property.merge_info infos acc.2 "td" row
      (acc.1 ++ "    <tr>" ++ rcells.1 ++ "</tr>\n", rcells.2)) ("", startIdx)).1
  ("<table" ++ attrHTML ++ ">\n" ++ colgroup ++ headPart
    ++ "  <tbody>\n" ++ bodyPart ++ "  </tbody>\n</table>\n", r.2)
termination_by (fuel, 2, 0)

/-- The cell-collection loop of the HTML branch: like `gfmRows` but each
cell is converted to HTML by the bridge and trimmed, not flattened. -/
def htmlRows (ctx : Ctx) (fuel : Nat) :
    List String → Nat → Nat → List (List String) → RState → List (List String) × RState
  | [], _, _, rows, st => (rows, st)
  | cellId :: rest, columnSize, idx, rows, st =>
    match lookupBlock ctx.blockMap cellId with
    | none => htmlRows ctx fuel rest columnSize (idx + 1) rows st
    | some block =>
      let rc := parseBlock ctx fuel block 0 st
      let cellHTML := strTrim (ctx.ext.markedParse rc.1)
      let row := idx / columnSize
      let rows := if rows.length < row + 1 then rows ++ [[]] else rows
      let rows := rows.set row ((rows.getD row []) ++ [cellHTML])
      htmlRows ctx fuel rest columnSize (idx + 1) rows rc.2
termination_by cs _ _ _ _ => (fuel, 1, cs.length)

/-- Source `parseGrid`: a CSS-grid wrapper `div`; every found child is
rendered through `parseGridColumn` (`column_size || 1` maps a JS-falsy 0
to 1). -/
def parseGrid (ctx : Ctx) (fuel : Nat) (block : Block) (st : RState) : String × RState :=
  let columnSize := match block.grid with
    | some g => if g.column_size == 0 then 1 else g.column_size
    | none => 1
  let r := parseGridChildren ctx fuel block.children st
  ("<div class=\"grid\" style=\"display: grid; grid-template-columns: repeat("
    ++ toString columnSize ++ ", 1fr); gap: 16px;\">\n" ++ r.1 ++ "</div>\n", r.2)
termination_by (fuel, 4, 0)

/-- The children loop of `parseGrid`. -/
def parseGridChildren (ctx : Ctx) (fuel : Nat) : List String → RState → String × RState
  | [], st => ("", st)
  | childId :: rest, st =>
    match lookupBlock ctx.blockMap childId with
    | none => parseGridChildren ctx fuel rest st
    | some child =>
      let rc := parseGridColumn ctx fuel child st
      let rr := parseGridChildren ctx fuel rest rc.2
      (rc.1 ++ rr.1, rr.2)
termination_by cs _ => (fuel, 3, cs.length)

/-- Source `parseGridColumn`: a flex wrapper `div` whose children are
rendered to Markdown (missing children map to empty strings, still joined
with newlines) and then converted by the HTML bridge. -/
def parseGridColumn (ctx : Ctx) (fuel : Nat) (block : Block) (st : RState) : String × RState :=
  let widthRatio := match block.grid_column with
    | some gc => if gc.width_ratio == 0 then 1 else gc.width_ratio
    | none => 1
  let r := mapChildren ctx fuel block.children st
  let inner := String.intercalate "\n" r.1
  ("<div class=\"grid-column\" style=\"flex: " ++ toString widthRatio ++ ";\">\n"
    ++ ctx.ext.markedParse inner ++ "</div>\n", r.2)
termination_by (fuel, 2, 0)

/-- The `children.map(...)` loops of `parseGridColumn` and `parseCallout`:
a missing child contributes an empty string entry (it is not dropped from
the join). -/
def mapChildren (ctx : Ctx) (fuel : Nat) : List String → RState → List String × RState
  | [], st => ([], st)
  | childId :: rest, st =>
    let rc := match lookupBlock ctx.blockMap childId with
      | some child => parseBlock ctx fuel child 0 st
      | none => ("", st)
    let rr := mapChildren ctx fuel rest rc.2
    (rc.1 :: rr.1, rr.2)
termination_by cs _ => (fuel, 1, cs.length)

/-- Source `parseCallout`: a styled `div` (colour lookups that miss the
fixed tables simply omit the style entry), an optional emoji span, and the
children rendered to Markdown and converted by the HTML bridge. -/
def parseCallout (ctx : Ctx) (fuel : Nat) (block : Block) (st : RState) : String × RState :=
  let sc := calloutStyle block.callout
  let styleAttr := if sc.1.length > 0 then
      " style=\"" ++ String.intercalate "; " sc.1 ++ "\""
    else ""
  let emojiPart := match block.callout with
    | some co => if co.emoji_id != "" then
        "<span class=\"callout-emoji\">" ++ ctx.ext.getEmojiChar co.emoji_id ++ "</span>\n"
      else ""
    | none => ""
  let r := mapChildren ctx fuel block.children st
  let inner := String.intercalate "\n" r.1
  ("<div class=\"" ++ String.intercalate " " sc.2 ++ "\"" ++ styleAttr ++ ">\n"
    ++ emojiPart ++ ctx.ext.markedParse inner ++ "</div>\n", r.2)
termination_by (fuel, 2, 0)

end

/-- Source `parse`: reset the token list, rebuild the block map, find the
root Page block (its absence is the single fatal error), render it and
return the trimmed text with one trailing newline, together with the
collected file tokens. -/
def parse (ext : Ext) (fuel : Nat) (blocks : List Block) (st : RState) :
    Except String (String × List FileToken) :=
  let st := { st with fileTokens := [] }
  let ctx : Ctx := { ext := ext, blockMap := blocks }
  match blocks.find? (fun b => b.block_type == BlockType.page) with
  | none => Except.error "未找到文档根节点（Page Block）"
  | some rootBlock =>
    let (result, st) := parseBlock ctx fuel rootBlock 0 st
    Except.ok (strTrim result ++ "\n", st.fileTokens)

/-! ## file.ts -/

/-- Source `utils/file.ts`, `replaceFileTokens`: for every (token, local
path) pair, in map insertion order, replace the literal occurrences of
`src="token"` and `](token)` in the rendered Markdown. -/
def replaceFileTokens (markdown : String) (tokenToPath : List (String × String)) : String :=
  tokenToPath.foldl
    (fun result p =>
      let result := strReplace result ("src=\"" ++ p.1 ++ "\"") ("src=\"" ++ p.2 ++ "\"")
      strReplace result ("](" ++ p.1 ++ ")") ("](" ++ p.2 ++ ")"))
    markdown

/-! ## General lemmas about the buffer primitives -/

theorem strEndsWith_append (x p : String) : strEndsWith (x ++ p) p = true := by
  simp [strEndsWith, String.data_append, List.isSuffixOf_iff_suffix]

theorem data_ne_nil_of_ne_empty {p : String} (hp : p ≠ "") : p.data ≠ [] := by
  intro h
  exact hp (String.ext (h.trans rfl))

theorem trimLastIfEndsWith_append (x p : String) (hp : p ≠ "") :
    trimLastIfEndsWith (x ++ p) p = some x := by
  have hd := data_ne_nil_of_ne_empty hp
  unfold trimLastIfEndsWith
  rw [if_neg (by simpa [List.isEmpty_iff] using hd)]
  rw [if_pos (by simp [String.data_append, List.isSuffixOf_iff_suffix])]
  congr 1
  apply String.ext
  simp only [String.data_append, List.length_append]
  rw [show x.data.length + p.data.length - p.data.length = x.data.length by omega]
  exact List.take_left x.data p.data

theorem trimLastIfEndsWith_of_not_ends {b p : String} (h : strEndsWith b p = false) :
    trimLastIfEndsWith b p = none := by
  unfold trimLastIfEndsWith
  unfold strEndsWith at h
  simp [h]

/-! ## Claim C9 -/

/-- C9: applying `replaceFileTokens` with an empty token-to-path map is the
identity on every markdown string: no token patterns are altered. -/
theorem c9_replaceFileTokens_empty_map_identity (markdown : String) :
    replaceFileTokens markdown [] = markdown := rfl

/-- Witness for C9 at a concrete input. -/
theorem c9_replaceFileTokens_empty_map_identity_witness :
    replaceFileTokens "<img src=\"tok1\" />" [] = "<img src=\"tok1\" />" :=
  c9_replaceFileTokens_empty_map_identity "<img src=\"tok1\" />"

/-! ## Claim C2 -/

/-- Identity external functions, used for concrete inputs (none of the
styles exercised below consult them). -/
def idExt : Ext := ⟨id, id, id⟩

def underlineStyle : TextElementStyle := { underline := true }

def boldStyle : TextElementStyle := { bold := true }

/-- C2 counterexample: for two adjacent runs that BOTH carry the underline
style, the composed output contains TWO back-to-back delimited spans, not
one.  The merge trims only when the buffer ends with the next run's
opening wrapper, and underline's wrapper is asymmetric (`<u>` opens,
`</u>` closes), so the trim never fires.  This falsifies the claim, which
lists underline among the merged styles. -/
theorem c2_counterexample_underline_not_merged :
    parseTextRun idExt {} (parseTextRun idExt {} "" ⟨"a", some underlineStyle⟩)
        ⟨"b", some underlineStyle⟩ = "<u>a</u><u>b</u>" ∧
    "<u>a</u><u>b</u>" ≠ "<u>" ++ "ab" ++ "</u>" := by
  constructor
  · decide
  · decide

/-- Closed form of one `parseTextRun` step for a symmetric wrapper `p`
that the colon override leaves unchanged. -/
theorem parseTextRun_symmetric (ext : Ext) (cur : Block) (buf : String)
    (s : Option TextElementStyle) (t p : String) (esc : Bool)
    (hw : styleWrappers ext s = (p, p, esc))
    (hc : colonAdjust s (escapedText esc cur t) p p = (p, p)) :
    parseTextRun ext cur buf ⟨t, s⟩ =
      match trimLastIfEndsWith buf p with
      | some trimmed => trimmed ++ escapedText esc cur t ++ p
      | none => buf ++ p ++ escapedText esc cur t ++ p := by
  unfold parseTextRun
  rw [hw]
  simp only
  rw [hc]

/-- C2 (amended): for two adjacent runs with an identical SYMMETRIC
single-style wrapper (bold, italic, strikethrough, or inline code, where
the opening delimiter `p` equals the closing one), composed on a buffer
that does not already end in `p`, and with neither run triggering the
trailing-colon HTML-tag override, the output carries exactly one opening
and one closing delimiter around the concatenated (escaped) text;
underline, whose wrapper is asymmetric, is excluded by the hypothesis
`styleWrappers ext s = (p, p, esc)`. -/
theorem c2_adjacent_same_style_merged (ext : Ext) (cur : Block) (buf : String)
    (s : Option TextElementStyle) (t1 t2 p : String) (esc : Bool)
    (hw : styleWrappers ext s = (p, p, esc)) (hp : p ≠ "")
    (hb : strEndsWith buf p = false)
    (h1 : colonAdjust s (escapedText esc cur t1) p p = (p, p))
    (h2 : colonAdjust s (escapedText esc cur t2) p p = (p, p)) :
    parseTextRun ext cur (parseTextRun ext cur buf ⟨t1, s⟩) ⟨t2, s⟩
      = buf ++ p ++ escapedText esc cur t1 ++ escapedText esc cur t2 ++ p := by
  have r1 : parseTextRun ext cur buf ⟨t1, s⟩ = buf ++ p ++ escapedText esc cur t1 ++ p := by
    rw [parseTextRun_symmetric ext cur buf s t1 p esc hw h1,
      trimLastIfEndsWith_of_not_ends hb]
  rw [r1, parseTextRun_symmetric ext cur _ s t2 p esc hw h2,
    show buf ++ p ++ escapedText esc cur t1 ++ p
      = (buf ++ p ++ escapedText esc cur t1) ++ p from rfl,
    trimLastIfEndsWith_append _ _ hp]

/-- Witness for C2's amended theorem: two adjacent bold runs collapse to a
single `**`-delimited span. -/
theorem c2_adjacent_same_style_merged_witness :
    parseTextRun idExt {} (parseTextRun idExt {} "" ⟨"a", some boldStyle⟩)
        ⟨"b", some boldStyle⟩
      = "" ++ "**" ++ escapedText true {} "a" ++ escapedText true {} "b" ++ "**" :=
  c2_adjacent_same_style_merged idExt {} "" (some boldStyle) "a" "b" "**" true
    (by decide) (by decide) (by decide) (by decide) (by decide)

/-! ## Claim C3 -/

/-- C3: `parseTable` renders the HTML table if and only if some merge-info
entry has a row span or column span greater than 1, or some declared
column width exceeds 100; in every other case it produces the
pipe-delimited GFM rendering. -/
theorem c3_complex_table_dispatch (ctx : Ctx) (fuel : Nat) (t : TableBlock) (st : RState) :
    (isComplexTable t = true ↔
      ((∃ mi ∈ t.property.merge_info, mi.row_span > 1 ∨ mi.col_span > 1) ∨
       (∃ w ∈ t.property.column_width, w > 100))) ∧
    (isComplexTable t = true →
      parseTable ctx fuel (some t) st = parseTableAsHTML ctx fuel t st) ∧
    (isComplexTable t = false →
      parseTable ctx fuel (some t) st = parseTableGFM ctx fuel t st) := by
  refine ⟨?_, ?_, ?_⟩
  · unfold isComplexTable
    simp [List.any_eq_true]
  · intro h
    simp [parseTable, h]
  · intro h
    simp [parseTable, h]

/-- Witness for C3 at concrete tables: a table whose (0,0) cell has
`row_span = 2` is complex and dispatches to the HTML rendering; a table
with all spans 1 and no column widths is not complex and dispatches to the
GFM rendering. -/
theorem c3_complex_table_dispatch_witness :
    (isComplexTable { cells := [], property := { merge_info := [{ row_span := 2 }] } } = true ∧
      parseTable ⟨idExt, []⟩ 5 (some { cells := [], property := { merge_info := [{ row_span := 2 }] } }) initState
        = parseTableAsHTML ⟨idExt, []⟩ 5 { cells := [], property := { merge_info := [{ row_span := 2 }] } } initState) ∧
    (isComplexTable { cells := [], property := {} } = false ∧
      parseTable ⟨idExt, []⟩ 5 (some { cells := [], property := {} }) initState
        = parseTableGFM ⟨idExt, []⟩ 5 { cells := [], property := {} } initState) :=
  ⟨⟨by decide, (c3_complex_table_dispatch ⟨idExt, []⟩ 5 _ initState).2.1 (by decide)⟩,
   ⟨by decide, (c3_complex_table_dispatch ⟨idExt, []⟩ 5 _ initState).2.2 (by decide)⟩⟩

/-! ## Claim C7 -/

/-- The heading discriminant of level `l` (1-9). -/
def headingBlockType (l : Nat) : BlockType :=
  match l with
  | 1 => BlockType.heading1
  | 2 => BlockType.heading2
  | 3 => BlockType.heading3
  | 4 => BlockType.heading4
  | 5 => BlockType.heading5
  | 6 => BlockType.heading6
  | 7 => BlockType.heading7
  | 8 => BlockType.heading8
  | 9 => BlockType.heading9
  | _ => BlockType.text

/-- The heading payload of level `l` (1-9). -/
def headingPayload (l : Nat) (b : Block) : Option TextBlock :=
  match l with
  | 1 => b.heading1
  | 2 => b.heading2
  | 3 => b.heading3
  | 4 => b.heading4
  | 5 => b.heading5
  | 6 => b.heading6
  | 7 => b.heading7
  | 8 => b.heading8
  | 9 => b.heading9
  | _ => none

/-- A run of `l` literal hash marks. -/
def hashes (l : Nat) : String := String.mk (List.replicate l '#')

/-- C7: for every heading block of level 1 through 9, the rendered
fragment (at indent 0) is exactly level-many hash characters, a single
space, and then the heading's inline content; levels 7-9 emit 7-9 literal
hash characters without clamping to 6. -/
theorem c7_heading_hash_count (ctx : Ctx) (fuel : Nat) (b : Block) (st : RState) (l : Nat)
    (h1 : 1 ≤ l) (h2 : l ≤ 9) (ht : b.block_type = headingBlockType l) :
    (parseBlock ctx (fuel + 1) b 0 st).1
      = hashes l ++ " "
        ++ strTrimLeft (parseTextBlock ctx fuel b (headingPayload l b)
            { st with indent := 0 }).1 := by
  interval_cases l <;>
    simp only [headingBlockType] at ht <;>
    simp only [headingPayload] <;>
    simp only [parseBlock, ht] <;>
    (congr 1 <;> decide)

def c7Heading7Block : Block :=
  { block_id := "h7", block_type := BlockType.heading7,
    heading7 := some { elements := some [{ text_run := some ⟨"T", none⟩ }] } }

/-- Witness for C7 at level 7: the fragment starts with seven hash
characters. -/
theorem c7_heading_hash_count_witness :
    (parseBlock ⟨idExt, []⟩ (4 + 1) c7Heading7Block 0 initState).1
      = hashes 7 ++ " "
        ++ strTrimLeft (parseTextBlock ⟨idExt, []⟩ 4 c7Heading7Block
            (headingPayload 7 c7Heading7Block) { initState with indent := 0 }).1 :=
  c7_heading_hash_count ⟨idExt, []⟩ 4 c7Heading7Block initState 7
    (by decide) (by decide) (by decide)

/-! ## Claims C5 / C4 / C10 : concrete tables -/

/-- A text block with a single unstyled run, used as table-cell content. -/
def mkTextB (id pid content : String) : Block :=
  { block_id := id, parent_id := pid, block_type := BlockType.text,
    text := some { elements := some [{ text_run := some ⟨content, none⟩ }] } }

/-- A table-cell block with the given children. -/
def mkCellB (id : String) (kids : List String) : Block :=
  { block_id := id, block_type := BlockType.tableCell, children := kids }

def c5Blocks : List Block :=
  [mkCellB "c1" ["t1"], mkCellB "c2" ["t2"], mkCellB "c3" ["t3"], mkCellB "c4" ["t4"],
   mkTextB "t1" "c1" "a", mkTextB "t2" "c2" "b", mkTextB "t3" "c3" "c", mkTextB "t4" "c4" "d"]

def c5ctx : Ctx := ⟨idExt, c5Blocks⟩

/-- The C5 table: `row_size = 2`, `column_size = 2`, all merge spans 1, no
column widths, `header_row = true`; the four cells hold the texts a, b, c,
d. -/
def c5Table : TableBlock :=
  { cells := ["c1", "c2", "c3", "c4"],
    property := { row_size := 2, column_size := 2, header_row := true,
                  merge_info := [{}, {}, {}, {}] } }

theorem c5_output_eval :
    (parseTable c5ctx 10 (some c5Table) initState).1 = "|a|b|\n|---|---|\n|c|d|\n" := by
  simp [parseTable, parseTableGFM, gfmRows, parseBlock, parseTableCell,
    parseContainerChildren, parseTextBlock, parseTextChildren, lookupBlock, renderElements,
    parseTextElement, parseTextRun, isComplexTable, c5ctx, c5Table, c5Blocks, mkCellB, mkTextB,
    initState]
  decide

/-- C5 counterexample: the GFM rendering of the 2x2 header table is a
THREE-line pipe table (header line, separator line, one body row — the
header row is extracted from the two collected rows), not a four-line one
as the claim states: the output contains exactly 3 newline-terminated
lines. -/
theorem c5_counterexample_not_four_lines :
    ¬ ((parseTable c5ctx 10 (some c5Table) initState).1.data.count '\n' = 4) := by
  rw [c5_output_eval]
  decide

/-- C5 (amended): the GFM output for the 2x2 header table is a THREE-line
pipe table — header line, separator line, and the single remaining body
row — each line carrying exactly 2 pipe-delimited cells (3 pipe
characters). -/
theorem c5_three_line_gfm_table :
    (parseTable c5ctx 10 (some c5Table) initState).1
      = "|a|b|" ++ "\n" ++ "|---|---|" ++ "\n" ++ "|c|d|" ++ "\n" ∧
    (parseTable c5ctx 10 (some c5Table) initState).1.data.count '\n' = 3 ∧
    (∀ line ∈ ["|a|b|", "|---|---|", "|c|d|"], line.data.count '|' = 3) := by
  refine ⟨?_, ?_, ?_⟩
  · rw [c5_output_eval]; decide
  · rw [c5_output_eval]; decide
  · decide

def c4Blocks : List Block :=
  [mkCellB "c1" [], mkCellB "c2" [], mkCellB "c3" [], mkCellB "c4" []]

/-- The C4 table: 2x2, `header_row = true`, and a merge span of
`row_span = 2` on the (0,0) cell; all other spans are 1. -/
def c4Table : TableBlock :=
  { cells := ["c1", "c2", "c3", "c4"],
    property := { row_size := 2, column_size := 2, header_row := true,
                  merge_info := [{ row_span := 2 }, {}, {}, {}] } }

set_option maxRecDepth 8000 in
/-- C4: for the 2-row 2-column table with `header_row` and `row_span = 2`
at (0,0), the HTML rendering gives the (0,0) header cell the attribute
`rowspan="2"`, and the covered cell (1,0) is omitted entirely: the body
row markup contains exactly one `td` element (the one for cell (1,1)),
not an empty cell.  The statement holds for every behaviour `f` of the
external Markdown-to-HTML bridge applied to the (here empty) cell
contents. -/
theorem c4_rowspan_covered_cell_omitted (f d e : String → String) :
    (parseTableAsHTML ⟨⟨f, d, e⟩, c4Blocks⟩ 10 c4Table initState).1
      = "<table header_row=\"1\">\n  <colgroup>\n    <col />\n    <col />\n  </colgroup>\n"
        ++ "  <thead>\n    <tr><th rowspan=\"2\">" ++ strTrim (f "") ++ "</th><th>"
        ++ strTrim (f "")
        ++ "</th></tr>\n  </thead>\n  <tbody>\n    <tr><td>" ++ strTrim (f "")
        ++ "</td></tr>\n  </tbody>\n</table>\n" := by
  have hci : cellInfos [{ row_span := 2 }, {}, {}, {}] 2 = [1, 1, 0, 1] := by decide
  have h2 : toString (2 : Nat) = "2" := rfl
  have h3 : " ".intercalate ["header_row=\"1\""] = "header_row=\"1\"" := by decide
  have h4 : " ".intercalate ["rowspan=\"2\""] = "rowspan=\"2\"" := by decide
  simp [parseTableAsHTML, htmlRows, parseBlock, parseTableCell, parseContainerChildren,
    lookupBlock, c4Table, c4Blocks, mkCellB, writeIndent, initState, hci, h2, h3, h4,
    writeCells, tableCellAttrHTML]
  apply String.ext
  simp [String.data_append]

/-- Witness for C4 with the identity bridge. -/
theorem c4_rowspan_covered_cell_omitted_witness :
    (parseTableAsHTML ⟨⟨id, id, id⟩, c4Blocks⟩ 10 c4Table initState).1
      = "<table header_row=\"1\">\n  <colgroup>\n    <col />\n    <col />\n  </colgroup>\n"
        ++ "  <thead>\n    <tr><th rowspan=\"2\">" ++ strTrim (id "") ++ "</th><th>"
        ++ strTrim (id "")
        ++ "</th></tr>\n  </thead>\n  <tbody>\n    <tr><td>" ++ strTrim (id "")
        ++ "</td></tr>\n  </tbody>\n</table>\n" :=
  c4_rowspan_covered_cell_omitted id id id

/-! ## Claim C10 -/

theorem range_map_const {α : Type} (n : Nat) (x : α) :
    (List.range n).map (fun _ => x) = List.replicate n x := by
  induction n with
  | zero => rfl
  | succ m ih =>
    rw [List.range_succ, List.map_append, ih]
    simp only [List.map_cons, List.map_nil]
    rw [← List.replicate_succ']

/-- C10: for every table taking the GFM path with `header_row = false`,
the output nevertheless begins with a header-position pipe row of
`column_size` blank (single-space) cells, followed by the `---|` separator
row, and ALL collected rows appear as body rows — none is consumed as a
header. -/
theorem c10_headerless_gfm_blank_header (ctx : Ctx) (fuel : Nat) (t : TableBlock) (st : RState)
    (hh : t.property.header_row = false) (hc : isComplexTable t = false) :
    (parseTable ctx fuel (some t) st).1 =
      "|" ++ String.join (List.replicate t.property.column_size " |") ++ "\n"
      ++ ("|" ++ String.join (List.replicate t.property.column_size "---|") ++ "\n")
      ++ String.join ((gfmRows ctx fuel t.cells t.property.column_size 0 [[]] st).1.map
          (fun row => "|" ++ String.join (row.map (fun cell => cell ++ "|")) ++ "\n")) := by
  simp only [parseTable, hc, Bool.false_eq_true, if_false, parseTableGFM, hh,
    List.getD_nil]
  rw [show (fun i => (if ("" : String) == "" then " " else "") ++ "|") = (fun _ : Nat => " |")
      from by funext i; decide]
  rw [range_map_const]

def c10Table : TableBlock :=
  { cells := ["c1", "c2", "c3", "c4"],
    property := { row_size := 2, column_size := 2, header_row := false,
                  merge_info := [{}, {}, {}, {}] } }

/-- Witness for C10: the headerless 2x2 table keeps both collected rows in
the body, below a blank header row. -/
theorem c10_headerless_gfm_blank_header_witness :
    (parseTable c5ctx 10 (some c10Table) initState).1 =
      "|" ++ String.join (List.replicate 2 " |") ++ "\n"
      ++ ("|" ++ String.join (List.replicate 2 "---|") ++ "\n")
      ++ String.join ((gfmRows c5ctx 10 c10Table.cells 2 0 [[]] initState).1.map
          (fun row => "|" ++ String.join (row.map (fun cell => cell ++ "|")) ++ "\n")) :=
  c10_headerless_gfm_blank_header c5ctx 10 c10Table initState (by decide) (by decide)

/-! ## Claim C6 -/

def c6Root : Block :=
  { block_id := "root", block_type := BlockType.page,
    page := some { elements := some [{ text_run := some ⟨"Title", none⟩ }] },
    children := ["missing", "b2"] }

def c6Sibling : Block :=
  { block_id := "b2", parent_id := "root", block_type := BlockType.text,
    text := some { elements := some [{ text_run := some ⟨"hi", none⟩ }] } }

/-- C6: `parse` fails (throws) if and only if the input list contains no
block whose discriminant is Page; in the shallow embedding `parse` is an
`Except` and the only `error` is the missing-root one, so success is
equivalent to the existence of a Page block.  The second conjunct shows on
a concrete document that a child ID with no corresponding block ("missing"
in `c6Root.children`) does not cause a failure: it is silently skipped and
the remaining sibling "b2" is still rendered. -/
theorem c6_fatal_iff_no_root_and_missing_child_skipped :
    (∀ (ext : Ext) (fuel : Nat) (blocks : List Block) (st : RState),
      (parse ext fuel blocks st).isOk = true ↔
        ∃ b ∈ blocks, b.block_type = BlockType.page) ∧
    parse idExt 10 [c6Root, c6Sibling] initState = Except.ok ("# Title\n\nhi\n", []) := by
  constructor
  · intro ext fuel blocks st
    cases hf : blocks.find? (fun b => b.block_type == BlockType.page) with
    | none =>
      have hp : (parse ext fuel blocks st).isOk = false := by
        simp only [parse, hf]
        rfl
      rw [List.find?_eq_none] at hf
      rw [hp]
      simp only [Bool.false_eq_true, false_iff]
      rintro ⟨b, hb, ht⟩
      have := hf b hb
      simp [ht] at this
    | some root =>
      have hp : (parse ext fuel blocks st).isOk = true := by
        simp only [parse, hf]
        rfl
      rw [hp]
      simp only [true_iff]
      exact ⟨root, List.mem_of_find?_eq_some hf, by simpa using List.find?_some hf⟩
  · simp [parse, parseBlock, parsePageBlock, parsePageChildren, parseTextBlock,
      parseTextChildren, lookupBlock, renderElements, parseTextElement, parseTextRun,
      c6Root, c6Sibling, initState]
    decide

/-- Witness for C6: a single-Page document parses successfully. -/
theorem c6_fatal_iff_no_root_and_missing_child_skipped_witness :
    (parse idExt 3 [c6Root] initState).isOk = true :=
  (c6_fatal_iff_no_root_and_missing_child_skipped.1 idExt 3 [c6Root] initState).mpr
    ⟨c6Root, by decide, by decide⟩

/-! ## Claim C1 -/

theorem findIdx?_beq_eq_some (x : String) :
    ∀ (l : List String) (i s : Nat),
      l[i]? = some x → (∀ j, j < i → l[j]? ≠ some x) →
      l.findIdx? (fun c => c == x) s = some (s + i) := by
  intro l
  induction l with
  | nil => intro i s hget _; simp at hget
  | cons a as ih =>
    intro i s hget hbefore
    cases i with
    | zero =>
      rw [List.getElem?_cons_zero] at hget
      rw [List.findIdx?_cons, if_pos (by simp [Option.some_inj.mp hget])]
      simp
    | succ j =>
      have ha : ¬ ((a == x) = true) := by
        have h0 := hbefore 0 (Nat.succ_pos j)
        rw [List.getElem?_cons_zero] at h0
        simpa using fun he => h0 (by rw [he])
      rw [List.findIdx?_cons, if_neg ha]
      rw [List.getElem?_cons_succ] at hget
      have := ih j (s + 1) hget (fun j2 hj2 => by
        have hb := hbefore (j2 + 1) (Nat.succ_lt_succ hj2)
        rwa [List.getElem?_cons_succ] at hb)
      rw [this]
      congr 1
      omega

theorem before_ne_of_nodup (l : List String) (hn : l.Nodup) (i : Nat) (x : String)
    (hx : l[i]? = some x) : ∀ j, j < i → l[j]? ≠ some x := by
  intro j hj hcon
  rw [List.getElem?_eq_some_iff] at hx hcon
  obtain ⟨hi, hxi⟩ := hx
  obtain ⟨hjl, hxj⟩ := hcon
  have : j = i := (List.Nodup.getElem_inj_iff hn).mp (hxj.trans hxi.symm)
  omega

theorem takeWhile_append_of_all (p : String → Bool) (l1 l2 : List String)
    (h : ∀ x ∈ l1, p x = true) :
    (l1 ++ l2).takeWhile p = l1 ++ l2.takeWhile p := by
  induction l1 with
  | nil => rfl
  | cons a as ih =>
    rw [List.cons_append, List.takeWhile_cons_of_pos (h a (List.mem_cons_self a as)),
      ih (fun x hx => h x (List.mem_cons_of_mem a hx))]
    rfl

/-- C1: inside a maximal run of consecutive same-parent ordered siblings
(`parent.children = pre ++ run`, every member of `run` resolving to an
Ordered block, and `pre` either empty or ending in a non-Ordered child,
which is exactly where the backward scan stops), the k-th member of the
run gets the ordinal `k + 1` — i.e. ordinals are exactly 1..N, numbering
restarts at 1 after any interruption — and `parseOrderedBlock` emits
exactly that ordinal followed by `". "`.  The ordinal is computed purely
from the sibling scan: the block model carries no numbering metadata at
all. -/
theorem c1_ordered_ordinal_from_sibling_scan (ctx : Ctx) (fuel : Nat) (st : RState)
    (indent : Nat) (parent b : Block) (pre run : List String) (k : Nat)
    (hpar : lookupBlock ctx.blockMap b.parent_id = some parent)
    (hch : parent.children = pre ++ run)
    (hnd : parent.children.Nodup)
    (hrun : ∀ id ∈ run, isOrderedBlockId ctx.blockMap id = true)
    (hpre : ∀ idl, pre.getLast? = some idl → isOrderedBlockId ctx.blockMap idl = false)
    (hk : run[k]? = some b.block_id) :
    computeOrder ctx.blockMap b = k + 1 ∧
    ∃ rest, (parseOrderedBlock ctx fuel b indent st).1 = toString (k + 1) ++ ". " ++ rest := by
  have hkl : k < run.length := by
    rw [List.getElem?_eq_some_iff] at hk
    exact hk.1
  have hgetfull : parent.children[pre.length + k]? = some b.block_id := by
    rw [hch, List.getElem?_append_right (Nat.le_add_right pre.length k)]
    simpa using hk
  have hfind : parent.children.findIdx? (fun c => c == b.block_id) = some (pre.length + k) := by
    have := findIdx?_beq_eq_some b.block_id parent.children (pre.length + k) 0 hgetfull
      (before_ne_of_nodup parent.children hnd (pre.length + k) b.block_id hgetfull)
    simpa using this
  have htake : parent.children.take (pre.length + k) = pre ++ run.take k := by
    rw [hch, List.take_append]
  have htw : ((parent.children.take (pre.length + k)).reverse.takeWhile
      (isOrderedBlockId ctx.blockMap)).length = k := by
    rw [htake, List.reverse_append]
    rw [takeWhile_append_of_all _ _ _ (fun x hx =>
      hrun x (List.take_subset k run (List.mem_reverse.mp hx)))]
    have hrest : pre.reverse.takeWhile (isOrderedBlockId ctx.blockMap) = [] := by
      cases hrev : pre.reverse with
      | nil => rfl
      | cons hd tl =>
        have : pre.getLast? = some hd := by
          rw [List.getLast?_eq_head?_reverse, hrev, List.head?_cons]
        rw [List.takeWhile_cons_of_neg (by simp [hpre hd this])]
    rw [hrest, List.append_nil, List.length_reverse, List.length_take]
    omega
  have hco : computeOrder ctx.blockMap b = k + 1 := by
    simp only [computeOrder, hpar, hfind, htw]
    omega
  refine ⟨hco, ?_⟩
  simp only [parseOrderedBlock, hco]
  exact ⟨_, String.append_assoc _ _ _⟩

def c1Parent : Block :=
  { block_id := "p", block_type := BlockType.page, children := ["t0", "o1", "o2"] }

def c1Text0 : Block :=
  { block_id := "t0", parent_id := "p", block_type := BlockType.text,
    text := some { elements := some [{ text_run := some ⟨"intro", none⟩ }] } }

def c1Ordered1 : Block :=
  { block_id := "o1", parent_id := "p", block_type := BlockType.ordered,
    ordered := some { elements := some [{ text_run := some ⟨"first", none⟩ }] } }

def c1Ordered2 : Block :=
  { block_id := "o2", parent_id := "p", block_type := BlockType.ordered,
    ordered := some { elements := some [{ text_run := some ⟨"second", none⟩ }] } }

def c1bm : List Block := [c1Parent, c1Text0, c1Ordered1, c1Ordered2]

/-- Witness for C1: in the child sequence text, ordered, ordered, the
second ordered item (position 1 of the run, after the text interruption)
gets ordinal 2. -/
theorem c1_ordered_ordinal_from_sibling_scan_witness :
    computeOrder c1bm c1Ordered2 = 1 + 1 ∧
    ∃ rest, (parseOrderedBlock ⟨idExt, c1bm⟩ 5 c1Ordered2 0 initState).1
      = toString (1 + 1) ++ ". " ++ rest :=
  c1_ordered_ordinal_from_sibling_scan ⟨idExt, c1bm⟩ 5 initState 0 c1Parent c1Ordered2
    ["t0"] ["o1", "o2"] 1 (by decide) (by decide) (by decide) (by decide)
    (by decide) (by decide)

/-! ## Claim C8

In the embedding the renderer is a pure function, so the substance of the
determinism claim is that `parse` depends only on the input block list and
the fixed external functions — not on the values of the mutable renderer
fields at call time.  `parse` resets `_fileTokens`, `parseBlock` sets
`indent` before any read, no rendering path reads `_title`, and the only
reads of `nextBlock` happen after the page-children loop has assigned it,
which the lemmas below make precise.  Two invocations on freshly
constructed renderers are the special case of two equal initial states. -/

theorem parseTextBlock_no_children (ctx : Ctx) (fuel : Nat) (block : Block)
    (tb : Option TextBlock) (st : RState)
    (h : childrenBlockTypes.contains block.block_type = false) :
    parseTextBlock ctx fuel block tb st = (textBlockText ctx.ext block tb, st) := by
  cases tb with
  | none => simp [parseTextBlock, textBlockText]
  | some t =>
    cases ht : t.elements with
    | none => simp [parseTextBlock, textBlockText, ht]
    | some els =>
      simp only [parseTextBlock, textBlockText, ht, h, Bool.false_eq_true, if_false]

theorem parsePageChildren_congr (ctx : Ctx) (fuel : Nat) :
    ∀ (cs : List String) (s1 s2 : RState),
      s1.indent = s2.indent → s1.fileTokens = s2.fileTokens →
      (parsePageChildren ctx fuel cs s1).1 = (parsePageChildren ctx fuel cs s2).1 ∧
      (parsePageChildren ctx fuel cs s1).2.indent
        = (parsePageChildren ctx fuel cs s2).2.indent ∧
      (parsePageChildren ctx fuel cs s1).2.fileTokens
        = (parsePageChildren ctx fuel cs s2).2.fileTokens := by
  intro cs
  induction cs with
  | nil =>
    intro s1 s2 h1 h2
    simp only [parsePageChildren]
    exact ⟨by trivial, h1, h2⟩
  | cons c rest ih =>
    intro s1 s2 h1 h2
    cases hc : lookupBlock ctx.blockMap c with
    | none =>
      simp only [parsePageChildren, hc]
      exact ih s1 s2 h1 h2
    | some child =>
      have hst : ({ s1 with nextBlock :=
          match rest.head? with
          | some nid => if nid == "" then none else lookupBlock ctx.blockMap nid
          | none => none } : RState)
          = { s2 with nextBlock :=
          match rest.head? with
          | some nid => if nid == "" then none else lookupBlock ctx.blockMap nid
          | none => none } := by
        cases s1
        cases s2
        simp only at h1 h2
        simp [h1, h2]
      simp only [parsePageChildren, hc, hst]
      refine ⟨?_, ?_, ?_⟩ <;> trivial

theorem parseBlock_page_congr (ctx : Ctx) (fuel : Nat) (root : Block)
    (hroot : root.block_type = BlockType.page) (s1 s2 : RState)
    (hft : s1.fileTokens = s2.fileTokens) :
    (parseBlock ctx fuel root 0 s1).1 = (parseBlock ctx fuel root 0 s2).1 ∧
    (parseBlock ctx fuel root 0 s1).2.fileTokens
      = (parseBlock ctx fuel root 0 s2).2.fileTokens := by
  cases fuel with
  | zero =>
    simp only [parseBlock]
    exact ⟨by trivial, hft⟩
  | succ n =>
    have hnc : childrenBlockTypes.contains root.block_type = false := by
      rw [hroot]; decide
    have ht1 := parseTextBlock_no_children ctx n root root.page { s1 with indent := 0 } hnc
    have ht2 := parseTextBlock_no_children ctx n root root.page { s2 with indent := 0 } hnc
    simp only [parseBlock, hroot, parsePageBlock, ht1, ht2]
    have hpc := parsePageChildren_congr ctx n root.children
      { s1 with indent := 0 } { s2 with indent := 0 } rfl hft
    exact ⟨by rw [hpc.1], hpc.2.2⟩

/-- C8: the markdown string and the ordered (token, kind) list produced by
`parse` do not depend on the renderer state at call time — in particular
two invocations on the same block list, each on a freshly constructed
renderer (equal initial states), return the identical string and the
identical token list.  The embedding threads the only mutable cells the
renderer has (`nextBlock`, `indent`, `_fileTokens`); that the returned
value is a pure function of them and the inputs is the side-effect-free
part of the claim. -/
theorem c8_parse_deterministic (ext : Ext) (fuel : Nat) (blocks : List Block)
    (s1 s2 : RState) :
    parse ext fuel blocks s1 = parse ext fuel blocks s2 := by
  cases hf : blocks.find? (fun b => b.block_type == BlockType.page) with
  | none => simp only [parse, hf]
  | some root =>
    have hro : root.block_type = BlockType.page := by simpa using List.find?_some hf
    simp only [parse, hf]
    have h := parseBlock_page_congr { ext := ext, blockMap := blocks } fuel root hro
      { s1 with fileTokens := [] } { s2 with fileTokens := [] } rfl
    rw [h.1, h.2]

end FeishuMd
